import Mathlib

/-!
Formal model of the iobench file-I/O benchmark.

The definitions below are shallow embeddings of the C++ sources
(src/src/main.cpp together with the bundled pacemaker.h header).
Machine integers of type size_t are modelled as natural numbers with
explicit reduction modulo 2^64 where the source arithmetic can wrap.
Components of the repository that are referenced but whose
implementation files are not part of the source tree (the FPSEstimator
of fps.h, the write-mode worker loop and the summary statistics of the
second CLI variant) are modelled from the specification and are marked
as such in their doc comments.
-/

namespace IOBench

/-! ## Workload splitting (main.cpp, workload-split handling) -/

/-- The modulus of the C++ size_t arithmetic used in main. -/
def size_t_mod : Nat := 2 ^ 64

/-- The list of file indices built in main: 0, 1, ..., N-1 where N is
the larger of the input and output path list lengths. -/
def file_indices (N : Nat) : List Nat := List.range N

/-- slice_size from main: file_indices.size() / num_workers
(size_t division). -/
def slice_size (N W : Nat) : Nat := N / W

/-- slice_point_a from main: slice_size * i. -/
def slice_point_a (N W i : Nat) : Nat := (slice_size N W * i) % size_t_mod

/-- slice_point_b from main: std::max(slice_size * (i + 1) - 1, N),
with the subtraction performed in size_t (wrapping at 2^64). -/
def slice_point_b (N W i : Nat) : Nat :=
  max ((slice_size N W * (i + 1) + (size_t_mod - 1)) % size_t_mod) N

/-- The slice handed to worker i: the elements of file_indices with
positions in [slice_point_a, slice_point_b), as built by the
std::vector range constructor. -/
def sliceOf (N W i : Nat) : List Nat :=
  ((file_indices N).drop (slice_point_a N W i)).take
    (slice_point_b N W i - slice_point_a N W i)

/-- The assignments produced by the "separate" workload split: worker i
receives sliceOf N W i. -/
def separateSplit (N W : Nat) : List (List Nat) :=
  (List.range W).map (fun i => sliceOf N W i)

/-- The "overlap" workload split computes exactly the same slice bounds
as the "separate" split and then shuffles each worker's local copy of
the slice; this is the content of worker i's slice before the shuffle. -/
def overlapBaseSlice (N W i : Nat) : List Nat := sliceOf N W i

/-! ## Worker state machine (main.cpp, struct Worker) -/

/-- WorkerStatus_t from main.cpp. -/
inductive WorkerStatus where
  | INIT
  | RUNNING
  | STOPPING
  | FINISHED
deriving DecidableEq, Repr

/-- WorkMode_t from main.cpp. -/
inductive WorkMode where
  | ONLY_READ
  | ONLY_WRITE
  | READ_AND_WRITE
  | DONT_DO_SHIT
deriving DecidableEq, Repr

/-- The observable state of a worker's control machine: the list of
still-unprocessed indices (the remaining iterations of the loop over
m_indices), the status field, the done counter, and whether the
worker's thread is currently executing Loop. -/
structure WorkerM where
  indices : List Nat
  status : WorkerStatus
  done : Nat
  active : Bool
deriving DecidableEq, Repr

/-- Worker::Start: a no-op when the status is already RUNNING,
otherwise sets the status to RUNNING and launches the loop thread. -/
def WorkerM.start (w : WorkerM) : WorkerM :=
  if w.status = WorkerStatus.RUNNING then w
  else { w with status := WorkerStatus.RUNNING, active := true }

/-- The status write performed by Worker::Stop (m_status = STOPPING),
before the join. -/
def WorkerM.stop (w : WorkerM) : WorkerM :=
  { w with status := WorkerStatus.STOPPING }

/-- One iteration of Worker::Loop, atomic up to one single-file I/O
operation: if the loop has exhausted m_indices it sets FINISHED and
returns; otherwise it first checks the status at the iteration
boundary and exits early to FINISHED when the status is not RUNNING;
otherwise it increments m_done and performs the I/O for one index.
A worker whose thread is not executing does nothing. -/
def WorkerM.loopStep (w : WorkerM) : WorkerM :=
  if w.active then
    match w.indices with
    | [] => { w with status := WorkerStatus.FINISHED, active := false }
    | _ :: rest =>
      if w.status = WorkerStatus.RUNNING then
        { w with indices := rest, done := w.done + 1 }
      else
        { w with status := WorkerStatus.FINISHED, active := false }
  else w

/-- Worker::Stop in full: the STOPPING write followed by the join,
which blocks until the loop thread has exited; when the thread is
active, its very next iteration boundary observes a status other than
RUNNING and exits. -/
def WorkerM.stopJoin (w : WorkerM) : WorkerM :=
  if w.active then w.stop.loopStep else w.stop

/-- Position of a status in the forward order
INIT -> RUNNING -> STOPPING -> FINISHED. -/
def statusRank : WorkerStatus → Nat
  | WorkerStatus.INIT => 0
  | WorkerStatus.RUNNING => 1
  | WorkerStatus.STOPPING => 2
  | WorkerStatus.FINISHED => 3

/-- The operations that can act on a worker's state: Start and Stop
called by the controller, and one iteration of the worker's own loop. -/
inductive WOp where
  | opStart
  | opStop
  | opStep
deriving DecidableEq, Repr

/-- Effect of one operation on the worker state. -/
def WOp.apply : WOp → WorkerM → WorkerM
  | WOp.opStart, w => w.start
  | WOp.opStop, w => w.stop
  | WOp.opStep, w => w.loopStep

/-- The discipline under which the status only moves forward: Start is
invoked only while the status is INIT or RUNNING, and Stop is never
invoked on a FINISHED worker; loop iterations are unrestricted. -/
def WOp.allowed : WOp → WorkerM → Prop
  | WOp.opStart, w => w.status = WorkerStatus.INIT ∨ w.status = WorkerStatus.RUNNING
  | WOp.opStop, w => w.status ≠ WorkerStatus.FINISHED
  | WOp.opStep, _ => True

/-! ## Worker move construction (main.cpp, Worker(Worker&&)) -/

/-- The full field set of struct Worker. The throughput logger
(FPSEstimator from fps.h, whose implementation file is not part of the
source tree) is modelled from the spec: the rate estimator records a
list of samples, and a default-constructed estimator holds no samples. -/
structure WorkerFull where
  m_indices : List Nat
  m_status : WorkerStatus
  m_workmode : WorkMode
  m_done : Nat
  m_logger : List Nat
deriving DecidableEq, Repr

/-- The Worker move constructor: its initializer moves m_indices and
copies m_status and m_done; m_workmode is left unset (its value in the
new object is indeterminate, modelled by the junk parameter) and the
throughput logger is freshly default-constructed. -/
def moveCtor (junk : WorkMode) (rhs : WorkerFull) : WorkerFull :=
  { m_indices := rhs.m_indices
    m_status := rhs.m_status
    m_workmode := junk
    m_done := rhs.m_done
    m_logger := [] }

/-! ## CPU usage monitor (main.cpp, struct CPUUsageInfo) -/

/-- The stored baselines of CPUUsageInfo: the elapsed-tick counter and
the system and user busy-tick counters captured at the previous query. -/
structure CPUUsageInfo where
  lastCPU : Int
  lastSysCPU : Int
  lastUserCPU : Int
deriving DecidableEq, Repr

/-- CPUUsageInfo::getTotalCPUUsage, as a function of the stored
baselines and of the freshly read counters now (times() return value),
stime and utime (the tms busy fields): when the new elapsed counter is
not greater than the baseline or either busy counter decreased, the
returned sample is the sentinel -1; otherwise it is the busy-tick
delta divided by the elapsed-tick delta.  In both cases all three
baselines are rebased to the freshly read values.  The C float result
is modelled as a rational. -/
def getTotalCPUUsage (s : CPUUsageInfo) (now stime utime : Int) :
    Rat × CPUUsageInfo :=
  let percent : Rat :=
    if now ≤ s.lastCPU ∨ stime < s.lastSysCPU ∨ utime < s.lastUserCPU then
      -1
    else
      (((stime - s.lastSysCPU) + (utime - s.lastUserCPU) : Int) : Rat) /
        ((now - s.lastCPU : Int) : Rat)
  (percent, { lastCPU := now, lastSysCPU := stime, lastUserCPU := utime })

/-! ## Pacemaker (pacemaker.h) -/

/-- Pacemaker::Stage. -/
inductive Stage where
  | Running
  | Paused
deriving DecidableEq, Repr

/-- The state of a Pacemaker.  Time points and durations are modelled
as integer nanosecond counts; the float FPS target as a rational. -/
structure PacemakerS where
  current_stage : Stage
  target_fps : Rat
  ns_per_beat : Int
  time_of_last_beat : Int
  accumulate_unfetched : Bool
deriving DecidableEq, Repr

/-- Pacemaker::SetTargetFPS: stores the new target and, for a positive
target, sets the beat length to (long)1e12 / (long)(1e3 * fps)
nanoseconds (the casts truncate; for a non-positive target the beat
length is left untouched). -/
def SetTargetFPS (p : PacemakerS) (fps : Rat) : PacemakerS :=
  { p with
    target_fps := fps
    ns_per_beat :=
      if 0 < fps then (10 ^ 12 : Int) / (1000 * fps).floor
      else p.ns_per_beat }

/-- The Pacemaker constructor: stage Running, time of last beat set to
now, then SetTargetFPS.  The ns0 parameter is the indeterminate
initial value of the uninitialized m_ns_per_beat member (only ever
read when the FPS target is positive, in which case SetTargetFPS has
overwritten it). -/
def mkPacemaker (fps : Rat) (acc : Bool) (now ns0 : Int) : PacemakerS :=
  SetTargetFPS
    { current_stage := Stage.Running
      target_fps := 0
      ns_per_beat := ns0
      time_of_last_beat := now
      accumulate_unfetched := acc } fps

/-- Pacemaker::Pause. -/
def PacemakerS.pause (p : PacemakerS) : PacemakerS :=
  { p with current_stage := Stage.Paused }

/-- Pacemaker::IsDue at query time now: returns false when paused;
else false for a zero FPS target; else true for a negative target;
otherwise compares the elapsed nanoseconds since the recorded last
beat against the beat length, returning false below one beat and
otherwise true while advancing the recorded beat time (by exactly one
beat when unfetched ticks accumulate, else to the latest beat-grid
point not after now). -/
def PacemakerS.IsDue (p : PacemakerS) (now : Int) : Bool × PacemakerS :=
  if p.current_stage = Stage.Paused then (false, p)
  else if p.target_fps = 0 then (false, p)
  else if p.target_fps < 0 then (true, p)
  else
    let difference := now - p.time_of_last_beat
    if difference < p.ns_per_beat then (false, p)
    else if p.accumulate_unfetched then
      (true, { p with time_of_last_beat := p.time_of_last_beat + p.ns_per_beat })
    else
      (true, { p with time_of_last_beat :=
                 p.time_of_last_beat +
                   (difference / p.ns_per_beat) * p.ns_per_beat })

/-! ## Disk I/O monitor (main.cpp, struct DisksIOInfo) -/

/-- One parsed line of /proc/diskstats together with the result of
probing /sys/block/NAME/queue/hw_sector_size: the device name, the
cumulative sectors-read counter (field six of the line), and the
sector size when the sysfs attribute file exists (it exists for disks
but not for partitions). -/
structure DiskStatLine where
  name : String
  sectors_read : Nat
  hw_sector_size : Option Nat
deriving DecidableEq, Repr

/-- The device-name filter of DisksIOInfo::init:
strncmp(disk_name.c_str(), "loop", strlen("loop")) == 0, i.e. the
first four characters of the name are "loop" (the names involved are
ASCII, so byte and character comparison agree). -/
def startsWithLoop (s : String) : Bool :=
  s.toList.take 4 == ['l', 'o', 'o', 'p']

/-- struct Disk from main.cpp. -/
structure Disk where
  name : String
  current_sectors_read : Nat
  last_sectors_read : Nat
  bytes_per_sector : Nat
deriving DecidableEq, Repr

/-- DisksIOInfo::init: walks the diskstats lines, skips devices whose
name begins with "loop" and devices without a discoverable sector
size, and records each remaining device as
Disk{name, sectors_read, 0, bytes_per_sector} - the cumulative counter
becomes current_sectors_read and last_sectors_read starts at 0. -/
def DisksIOInfo.init (lines : List DiskStatLine) : List Disk :=
  lines.filterMap fun ln =>
    if startsWithLoop ln.name then none
    else
      match ln.hw_sector_size with
      | none => none
      | some bps =>
        some { name := ln.name
               current_sectors_read := ln.sectors_read
               last_sectors_read := 0
               bytes_per_sector := bps }

/-- DisksIOInfo::getFastestDiskRead: the largest value of
bytes_per_sector * (current_sectors_read - last_sectors_read) over all
recorded disks (size_t subtraction; starting from 0). -/
def getFastestDiskRead (disks : List Disk) : Nat :=
  disks.foldl
    (fun fastest d =>
      max fastest
        (d.bytes_per_sector * (d.current_sectors_read - d.last_sectors_read)))
    0

/-! ## Write-mode worker steps

The CLI variant under src only implements the read-only loop; the
write-capable loop of the second variant is referenced by the WorkMode
enumerators ONLY_WRITE and READ_AND_WRITE and by the --mode option but
its implementation is not part of the source tree, so it is modelled
from the specification here. -/

/-- A file system snapshot: contents (as byte lists) by path. -/
def FS : Type := String → Option (List Nat)

/-- The path stored at a given index of one of the parallel path
lists. -/
def pathAt (l : List String) (i : Nat) : String := l.getD i ""

/-- Modelled from the spec: the configuration and open-oracles seen by
a write-capable worker of the second CLI variant (whose loop is not
under src): the parallel path lists, the configured fixed write size
in bytes, and for each path whether opening it succeeds. -/
structure WorkerEnv where
  infilenames : List String
  outfilenames : List String
  write_size : Nat
  readOpenOk : String → Bool
  writeOpenOk : String → Bool

/-- Modelled from the spec: the synthesized content buffer of the
configured fixed size written by a WriteOnly worker. -/
def synthContent (n : Nat) : List Nat := List.replicate n 0

/-- Modelled from the spec: one WriteOnly iteration of the second CLI
variant's worker loop at an assigned index: synthesize a buffer of the
configured fixed size, open the output path at that index for binary
write, and on failure log and skip (leaving the file system
unchanged).  Returns the new file system and whether the write
happened. -/
def writeOnlyStep (env : WorkerEnv) (fs : FS) (idx : Nat) : FS × Bool :=
  if env.writeOpenOk (pathAt env.outfilenames idx) then
    ((fun q =>
        if q = pathAt env.outfilenames idx then
          some (synthContent env.write_size)
        else fs q),
     true)
  else
    (fs, false)

/-- Modelled from the spec: one ReadWrite iteration of the second CLI
variant's worker loop at an assigned index: open and read the entire
input file at that index (on open failure log and skip), then write
the just-read content to the output path at the same index (again
skipping on open failure).  Returns the new file system and the
content that was read, if any. -/
def readWriteStep (env : WorkerEnv) (fs : FS) (idx : Nat) :
    FS × Option (List Nat) :=
  if env.readOpenOk (pathAt env.infilenames idx) then
    match fs (pathAt env.infilenames idx) with
    | none => (fs, none)
    | some content =>
      if env.writeOpenOk (pathAt env.outfilenames idx) then
        ((fun q =>
            if q = pathAt env.outfilenames idx then some content else fs q),
         some content)
      else
        (fs, some content)
  else
    (fs, none)

/-! ## Summary statistics and final report

The summary-statistics component (RobustAverage, RobustMin) and the
final headline report belong to the second CLI variant, whose source is
not under src; they are modelled from the specification. -/

/-- Modelled from the spec: RobustMin() of the summary statistics (not
under src) returns the minimum of the samples excluding the first two
chronological ones, and signals an error (here: none) when fewer than
3 samples exist. -/
def robustMin (l : List Rat) : Option Rat :=
  match l with
  | _ :: _ :: c :: rest => some (rest.foldl min c)
  | _ => none

/-- Modelled from the spec: RobustAverage() of the summary statistics
(not under src) sorts a copy of the samples, drops the lowest and the
highest 5 percent by rank, and averages the remaining middle 90
percent. -/
def robustAverage (l : List Rat) : Rat :=
  let sorted := List.insertionSort (· ≤ ·) l
  let k := l.length / 20
  let kept := (sorted.drop k).take (sorted.length - 2 * k)
  kept.sum / (kept.length : Rat)

/-- Modelled from the spec: the controller's shutdown of the second
CLI variant (the variant under src joins the workers the same way but
prints no summary): join all workers via Worker::Stop and report
RobustAverage() and RobustMin() of the accumulated throughput history
as the final headline numbers. -/
def finalReport (ws : List WorkerM) (history : List Rat) :
    List WorkerM × Rat × Option Rat :=
  (ws.map WorkerM.stopJoin, robustAverage history, robustMin history)

/-! ## Helper lemmas -/

theorem loopStep_inactive (w : WorkerM) (h : w.active = false) :
    w.loopStep = w := by
  simp [WorkerM.loopStep, h]

theorem stopJoin_joins (w : WorkerM) : w.stopJoin.active = false := by
  obtain ⟨ind, st, dn, ac⟩ := w
  cases ac <;> cases ind <;>
    simp [WorkerM.stopJoin, WorkerM.stop, WorkerM.loopStep]

theorem foldl_min_mem (l : List Rat) (c : Rat) : l.foldl min c ∈ c :: l := by
  induction l generalizing c with
  | nil => simp
  | cons a t ih =>
    rw [List.foldl_cons]
    rcases List.mem_cons.mp (ih (min c a)) with h1 | h1
    · rcases min_cases c a with ⟨heq, _⟩ | ⟨heq, _⟩
      · rw [h1, heq]
        exact List.mem_cons_self _ _
      · rw [h1, heq]
        exact List.mem_cons.mpr (Or.inr (List.mem_cons_self _ _))
    · exact List.mem_cons.mpr (Or.inr (List.mem_cons.mpr (Or.inr h1)))

theorem foldl_min_le_init (l : List Rat) (c : Rat) : l.foldl min c ≤ c := by
  induction l generalizing c with
  | nil => simp
  | cons a t ih =>
    rw [List.foldl_cons]
    exact le_trans (ih (min c a)) (min_le_left _ _)

theorem foldl_min_le (l : List Rat) (c : Rat) :
    ∀ x ∈ c :: l, l.foldl min c ≤ x := by
  induction l generalizing c with
  | nil =>
    intro x hx
    simp at hx
    simp [hx]
  | cons a t ih =>
    intro x hx
    rw [List.foldl_cons]
    rcases List.mem_cons.mp hx with h1 | h1
    · subst h1
      exact le_trans (foldl_min_le_init t (min x a)) (min_le_left _ _)
    · rcases List.mem_cons.mp h1 with h2 | h2
      · subst h2
        exact le_trans (foldl_min_le_init t (min c x)) (min_le_right _ _)
      · exact ih (min c a) x (List.mem_cons.mpr (Or.inr h2))

theorem getFastest_of_last_zero (disks : List Disk)
    (h : ∀ d ∈ disks, d.last_sectors_read = 0) :
    getFastestDiskRead disks =
      disks.foldl (fun m d => max m (d.bytes_per_sector * d.current_sectors_read)) 0 := by
  unfold getFastestDiskRead
  generalize (0 : Nat) = a
  induction disks generalizing a with
  | nil => rfl
  | cons d t ih =>
    have hd : d.last_sectors_read = 0 := h d (List.mem_cons_self _ _)
    simp only [List.foldl_cons, hd, Nat.sub_zero]
    exact ih (fun x hx => h x (List.mem_cons.mpr (Or.inr hx))) _

/-! ## Claims -/

/-- Claim C1: under the Separate split strategy, the W worker
assignments would be disjoint contiguous slices of size floor(N/W)
whose union is the full index set with no duplicates and no gaps.
The code computes each slice end as std::max(slice_size*(i+1) - 1, N)
instead of clamping with min, so every worker's slice runs to the end
of the index set: already for N = 2, W = 2 the produced assignments
are [0, 1] and [1] - slice sizes 2 and 1 instead of 1 and 1, and index
1 is handed to both workers - contradicting the code's own comment
that the workload is distributed equally among all workers. -/
theorem c1_separate_split_violated :
    separateSplit 2 2 = [[0, 1], [1]] ∧
    ¬ ((∀ s ∈ separateSplit 2 2, s.length = slice_size 2 2) ∧
       (separateSplit 2 2).flatten.Perm (file_indices 2)) := by
  constructor
  · decide
  · decide

/-- Claim C2 (modelled from the spec; the write-capable worker loop is
not under src): a WriteOnly worker, for an assigned index, writes a
synthesized buffer of the configured fixed size to the output path at
that index and skips without touching the file system when the open
fails; a ReadWrite worker writes the just-read input content to the
output path at the same index. -/
theorem c2_write_modes (env : WorkerEnv) (fs : FS) (idx : Nat) :
    (env.writeOpenOk (pathAt env.outfilenames idx) = true →
      (writeOnlyStep env fs idx).1 (pathAt env.outfilenames idx) =
          some (synthContent env.write_size) ∧
        (synthContent env.write_size).length = env.write_size) ∧
    (env.writeOpenOk (pathAt env.outfilenames idx) = false →
      (writeOnlyStep env fs idx).1 = fs) ∧
    (∀ content, (readWriteStep env fs idx).2 = some content →
      env.writeOpenOk (pathAt env.outfilenames idx) = true →
      (readWriteStep env fs idx).1 (pathAt env.outfilenames idx) =
        some content) := by
  refine ⟨?_, ?_, ?_⟩
  · intro h
    refine ⟨?_, by simp [synthContent]⟩
    simp only [writeOnlyStep, h, if_true]
  · intro h
    simp only [writeOnlyStep, h, Bool.false_eq_true, if_false]
  · intro content h hw
    unfold readWriteStep at h ⊢
    by_cases hr : env.readOpenOk (pathAt env.infilenames idx) = true
    · rw [if_pos hr] at h ⊢
      cases hfs : fs (pathAt env.infilenames idx) with
      | none =>
        rw [hfs] at h
        exact absurd h (by simp)
      | some c =>
        rw [hfs] at h
        simp only [hw, if_true] at h ⊢
        have hc : c = content := by simpa using h
        subst hc
        simp
    · simp only [Bool.not_eq_true] at hr
      rw [hr] at h
      exact absurd h (by simp)

/-- Claim C3 (modelled from the spec; the summary statistics and the
headline report are not under src): after all workers have finished
the controller joins every worker and reports the robust average (the
mean of the middle 90 percent of the rank-sorted samples) and the
robust minimum (the minimum excluding the first two chronological
samples, an error when fewer than 3 samples exist) of the accumulated
throughput history as the final headline numbers. -/
theorem c3_final_report (ws : List WorkerM) (hist : List Rat) :
    (finalReport ws hist).1 = ws.map WorkerM.stopJoin ∧
    (∀ w ∈ (finalReport ws hist).1, w.active = false) ∧
    (finalReport ws hist).2.1 = robustAverage hist ∧
    (finalReport ws hist).2.2 = robustMin hist ∧
    (hist.length < 3 → robustMin hist = none) ∧
    (∀ m, robustMin hist = some m →
      m ∈ hist.drop 2 ∧ ∀ x ∈ hist.drop 2, m ≤ x) ∧
    (∀ s : List Rat, s.Perm hist → s.Sorted (· ≤ ·) →
      robustAverage hist =
        ((s.drop (hist.length / 20)).take
            (s.length - 2 * (hist.length / 20))).sum /
          (((s.drop (hist.length / 20)).take
              (s.length - 2 * (hist.length / 20))).length : Rat)) := by
  refine ⟨rfl, ?_, rfl, rfl, ?_, ?_, ?_⟩
  · intro w hw
    rcases List.mem_map.mp hw with ⟨v, _, hv⟩
    rw [← hv]
    exact stopJoin_joins v
  · intro hlen
    rcases hist with _ | ⟨a, _ | ⟨b, _ | ⟨c, rest⟩⟩⟩
    · rfl
    · rfl
    · rfl
    · exfalso
      simp only [List.length_cons] at hlen
      omega
  · intro m hm
    rcases hist with _ | ⟨a, _ | ⟨b, _ | ⟨c, rest⟩⟩⟩
    · exact absurd hm (by simp [robustMin])
    · exact absurd hm (by simp [robustMin])
    · exact absurd hm (by simp [robustMin])
    · simp only [robustMin, Option.some.injEq] at hm
      subst hm
      constructor
      · simpa using foldl_min_mem rest c
      · intro x hx
        exact foldl_min_le rest c x (by simpa using hx)
  · intro s hperm hsorted
    have hs : List.insertionSort (· ≤ ·) hist = s :=
      List.eq_of_perm_of_sorted
        ((List.perm_insertionSort _ hist).trans hperm.symm)
        (List.sorted_insertionSort _ hist) hsorted
    unfold robustAverage
    rw [hs]

/-- Claim C4: under the Overlap split strategy every worker's
assignment would be a permutation of the identical full index set.
The code computes the same slice bounds as the Separate split before
shuffling each local copy, so with N = 2 indices and W = 2 workers,
worker 1's pre-shuffle slice is [1], and no shuffle (permutation) of
it can be a permutation of the full index set [0, 1] - contradicting
the code's own comment that all workers use the same data. -/
theorem c4_overlap_violated (l : List Nat)
    (hl : l.Perm (overlapBaseSlice 2 2 1)) :
    overlapBaseSlice 2 2 1 = [1] ∧ ¬ l.Perm (file_indices 2) := by
  have hbase : overlapBaseSlice 2 2 1 = [1] := by decide
  refine ⟨hbase, ?_⟩
  intro hcontra
  have h1 : ([1] : List Nat).Perm (file_indices 2) :=
    (hbase ▸ hl).symm.trans hcontra
  exact absurd h1 (by decide)

/-- Claim C4 witness: the identity shuffle of worker 1's slice is a
permutation of that slice and is not a permutation of the full index
set. -/
theorem c4_overlap_violated_witness :
    overlapBaseSlice 2 2 1 = [1] ∧
    ¬ ([1] : List Nat).Perm (file_indices 2) :=
  c4_overlap_violated [1] (by decide)

/-- Claim C5: if Stop() is called on a running worker, the status
transitions to Finished at the next iteration boundary of the
execution loop (after at most one in-flight single-file I/O operation,
that is, one loop step), and the done counter never advances after
that transition. -/
theorem c5_stop_finishes (ind : List Nat) (dn : Nat) :
    (WorkerM.mk ind WorkerStatus.RUNNING dn true).stop.loopStep.status =
        WorkerStatus.FINISHED ∧
    (WorkerM.mk ind WorkerStatus.RUNNING dn true).stop.loopStep.done = dn ∧
    (WorkerM.mk ind WorkerStatus.RUNNING dn true).stop.loopStep.active = false ∧
    ∀ n : Nat,
      (WorkerM.loopStep^[n]
        (WorkerM.mk ind WorkerStatus.RUNNING dn true).stop.loopStep).done = dn ∧
      (WorkerM.loopStep^[n]
          (WorkerM.mk ind WorkerStatus.RUNNING dn true).stop.loopStep).status =
        WorkerStatus.FINISHED := by
  have hstep : (WorkerM.mk ind WorkerStatus.RUNNING dn true).stop.loopStep =
      WorkerM.mk ind WorkerStatus.FINISHED dn false := by
    cases ind <;> simp [WorkerM.stop, WorkerM.loopStep]
  rw [hstep]
  refine ⟨rfl, rfl, rfl, ?_⟩
  intro n
  rw [Function.iterate_fixed
    (loopStep_inactive (WorkerM.mk ind WorkerStatus.FINISHED dn false) rfl) n]
  exact ⟨rfl, rfl⟩

/-- Claim C6 counterexample: the status does not only move forward.
Start a worker with an empty assignment, let its loop finish (status
FINISHED), then call Stop() - as the controller's shutdown does on
every run - and the unconditional m_status = STOPPING write moves the
status backward from FINISHED to STOPPING. -/
theorem c6_backward_transition :
    statusRank
        ((WorkerM.mk [] WorkerStatus.INIT 0 false).start.loopStep.stop.status) <
      statusRank
        ((WorkerM.mk [] WorkerStatus.INIT 0 false).start.loopStep.status) := by
  decide

/-- Claim C6 (amended): the loop's own updates always move the status
forward, and so do Start and Stop under the discipline that Start is
invoked only while the status is Init or Running and Stop never on a
Finished worker; outside that discipline, Stop on a Finished worker
moves the status backward to Stopping, and Start on a Stopping or
Finished worker moves it backward to Running. -/
theorem c6_forward_under_discipline (op : WOp) (w : WorkerM)
    (hok : op.allowed w) :
    statusRank w.status ≤ statusRank ((op.apply w).status) := by
  obtain ⟨ind, st, dn, ac⟩ := w
  cases op with
  | opStart =>
    rcases hok with h | h <;>
      · simp only at h
        subst h
        simp [WOp.apply, WorkerM.start, statusRank]
  | opStop =>
    cases st with
    | FINISHED => exact absurd rfl hok
    | INIT => simp [WOp.apply, WorkerM.stop, statusRank]
    | RUNNING => simp [WOp.apply, WorkerM.stop, statusRank]
    | STOPPING => simp [WOp.apply, WorkerM.stop, statusRank]
  | opStep =>
    cases ac with
    | false => simp [WOp.apply, WorkerM.loopStep]
    | true =>
      cases ind with
      | nil =>
        cases st <;> simp [WOp.apply, WorkerM.loopStep, statusRank]
      | cons x rest =>
        cases st <;> simp [WOp.apply, WorkerM.loopStep, statusRank]

/-- Claim C6 witness: stopping a still-running worker respects the
forward order. -/
theorem c6_forward_witness :
    statusRank (WorkerM.mk [] WorkerStatus.RUNNING 0 true).status ≤
      statusRank
        ((WOp.opStop.apply (WorkerM.mk [] WorkerStatus.RUNNING 0 true)).status) :=
  c6_forward_under_discipline WOp.opStop
    (WorkerM.mk [] WorkerStatus.RUNNING 0 true) (by simp [WOp.allowed])

/-- Claim C7: each CPU usage query returns the busy-tick delta divided
by the elapsed-tick delta since the previous call; when the new
elapsed counter is not greater than the stored baseline or either busy
counter decreased, it returns a negative sentinel for that one sample;
in both cases it rebases all three baselines to the freshly read
values. -/
theorem c7_cpu_usage (s : CPUUsageInfo) (now stime utime : Int) :
    (getTotalCPUUsage s now stime utime).2 =
        CPUUsageInfo.mk now stime utime ∧
    ((now ≤ s.lastCPU ∨ stime < s.lastSysCPU ∨ utime < s.lastUserCPU) →
      (getTotalCPUUsage s now stime utime).1 < 0) ∧
    (s.lastCPU < now → s.lastSysCPU ≤ stime → s.lastUserCPU ≤ utime →
      (getTotalCPUUsage s now stime utime).1 =
        (((stime - s.lastSysCPU) + (utime - s.lastUserCPU) : Int) : Rat) /
          ((now - s.lastCPU : Int) : Rat)) := by
  refine ⟨rfl, ?_, ?_⟩
  · intro h
    simp only [getTotalCPUUsage, if_pos h]
    norm_num
  · intro h1 h2 h3
    have hcond : ¬ (now ≤ s.lastCPU ∨ stime < s.lastSysCPU ∨
        utime < s.lastUserCPU) := by
      push_neg
      exact ⟨h1, h2, h3⟩
    simp only [getTotalCPUUsage, if_neg hcond]

/-- Claim C7 witness: from baselines (0, 0, 0), reading counters
(10, 2, 3) yields (2 + 3) / 10 = 1/2 and rebases; a subsequent read
with a non-advancing elapsed counter yields the negative sentinel. -/
theorem c7_cpu_usage_witness :
    (getTotalCPUUsage (CPUUsageInfo.mk 0 0 0) 10 2 3).1 = 1 / 2 ∧
    (getTotalCPUUsage (CPUUsageInfo.mk 0 0 0) 10 2 3).2 =
        CPUUsageInfo.mk 10 2 3 ∧
    (getTotalCPUUsage (CPUUsageInfo.mk 10 2 3) 5 2 3).1 < 0 := by
  refine ⟨?_, (c7_cpu_usage (CPUUsageInfo.mk 0 0 0) 10 2 3).1,
    (c7_cpu_usage (CPUUsageInfo.mk 10 2 3) 5 2 3).2.1 (Or.inl (by norm_num))⟩
  have h := (c7_cpu_usage (CPUUsageInfo.mk 0 0 0) 10 2 3).2.2
    (by norm_num) (by norm_num) (by norm_num)
  rw [h]
  norm_num

/-- Claim C8 counterexample: IsDue() does not always return true for a
negative target frequency - the pause check precedes the
negative-target check, so a paused pacemaker with target -1 returns
false. -/
theorem c8_paused_negative_returns_false :
    (mkPacemaker (-1) false 0 0).pause.target_fps < 0 ∧
    ((mkPacemaker (-1) false 0 0).pause.IsDue 5).1 = false := by
  constructor
  · decide
  · decide

/-- Claim C8 (amended): IsDue() always returns false while paused
(pausing takes precedence over the frequency rules); when not paused
it always returns false for target frequency 0, always returns true
for a negative target frequency, and for a positive target frequency
it returns true exactly when at least one beat length has elapsed
since the recorded time of the last beat (which each true-returning
call advances). -/
theorem c8_is_due (p : PacemakerS) (now : Int) :
    (p.current_stage = Stage.Paused → (p.IsDue now).1 = false) ∧
    (p.current_stage ≠ Stage.Paused → p.target_fps = 0 →
      (p.IsDue now).1 = false) ∧
    (p.current_stage ≠ Stage.Paused → p.target_fps < 0 →
      (p.IsDue now).1 = true) ∧
    (p.current_stage ≠ Stage.Paused → 0 < p.target_fps →
      ((p.IsDue now).1 = true ↔ p.ns_per_beat ≤ now - p.time_of_last_beat)) := by
  refine ⟨?_, ?_, ?_, ?_⟩
  · intro h
    simp only [PacemakerS.IsDue, if_pos h]
  · intro h hz
    simp only [PacemakerS.IsDue, if_neg h, if_pos hz]
  · intro h hneg
    have hz : ¬ p.target_fps = 0 := by
      intro he
      rw [he] at hneg
      exact absurd hneg (by norm_num)
    simp only [PacemakerS.IsDue, if_neg h, if_neg hz, if_pos hneg]
  · intro h hpos
    have hz : ¬ p.target_fps = 0 := by
      intro he
      rw [he] at hpos
      exact absurd hpos (by norm_num)
    have hneg : ¬ p.target_fps < 0 := not_lt_of_gt hpos
    simp only [PacemakerS.IsDue, if_neg h, if_neg hz, if_neg hneg]
    by_cases hd : now - p.time_of_last_beat < p.ns_per_beat
    · simp only [if_pos hd]
      constructor
      · intro hfalse
        exact absurd hfalse (by simp)
      · intro hle
        exact absurd hd (not_lt_of_ge hle)
    · simp only [if_neg hd]
      constructor
      · intro _
        exact le_of_not_lt hd
      · intro _
        by_cases hacc : p.accumulate_unfetched <;> simp [hacc]

theorem mkPacemaker_one_ns_per_beat :
    (mkPacemaker 1 false 0 0).ns_per_beat = 10 ^ 9 := by
  simp only [mkPacemaker, SetTargetFPS]
  rw [if_pos (by norm_num : (0 : Rat) < 1)]
  have hm : (1000 : Rat) * 1 = 1000 := by norm_num
  rw [hm, Rat.floor_def']
  decide

theorem mkPacemaker_one_last_beat :
    (mkPacemaker 1 false 0 0).time_of_last_beat = 0 := rfl

/-- Claim C8 witness: a 1-beat-per-second pacemaker created at time 0
is not due after 5 nanoseconds and is due after one full beat length
of 10^9 nanoseconds; a paused instance and a zero-target instance are
never due; an unpaused negative-target instance is always due. -/
theorem c8_is_due_witness :
    ((mkPacemaker 1 false 0 0).pause.IsDue 5).1 = false ∧
    ((mkPacemaker 0 false 0 7).IsDue 5).1 = false ∧
    ((mkPacemaker (-2) false 0 7).IsDue 5).1 = true ∧
    ((mkPacemaker 1 false 0 0).IsDue 5).1 = false ∧
    ((mkPacemaker 1 false 0 0).IsDue (10 ^ 9)).1 = true := by
  refine ⟨(c8_is_due (mkPacemaker 1 false 0 0).pause 5).1 rfl,
    (c8_is_due (mkPacemaker 0 false 0 7) 5).2.1 (by decide) rfl,
    (c8_is_due (mkPacemaker (-2) false 0 7) 5).2.2.1 (by decide) (by decide),
    ?_, ?_⟩
  · have h := (c8_is_due (mkPacemaker 1 false 0 0) 5).2.2.2 (by decide) (by decide)
    rw [← Bool.not_eq_true]
    intro htrue
    have hle := h.mp htrue
    rw [mkPacemaker_one_ns_per_beat, mkPacemaker_one_last_beat] at hle
    norm_num at hle
  · have h := (c8_is_due (mkPacemaker 1 false 0 0) (10 ^ 9)).2.2.2
      (by decide) (by decide)
    apply h.mpr
    rw [mkPacemaker_one_ns_per_beat, mkPacemaker_one_last_beat]
    norm_num

/-- Claim C9: moving a Worker carries over its assigned indices,
status and done count, while the moved-to Worker's rate estimator is a
fresh default-constructed one holding no samples, and its work mode is
not copied from the source (it is independent of the source's work
mode). -/
theorem c9_move_ctor (junk : WorkMode) (w v : WorkerFull) :
    (moveCtor junk w).m_indices = w.m_indices ∧
    (moveCtor junk w).m_status = w.m_status ∧
    (moveCtor junk w).m_done = w.m_done ∧
    (moveCtor junk w).m_logger = [] ∧
    (moveCtor junk w).m_workmode = (moveCtor junk v).m_workmode :=
  ⟨rfl, rfl, rfl, rfl, rfl⟩

/-- Claim C10: disk-monitor initialization records each discovered
device with last_sectors_read 0 and current_sectors_read equal to the
cumulative counter, so a getFastestDiskRead() issued before the first
update() returns the largest bytes_per_sector times full cumulative
sectors-read counter over the discovered devices, not a delta. -/
theorem c10_init_baseline (lines : List DiskStatLine) :
    (∀ d ∈ DisksIOInfo.init lines, d.last_sectors_read = 0) ∧
    (∀ ln ∈ lines, ∀ bps : Nat, startsWithLoop ln.name = false →
      ln.hw_sector_size = some bps →
      Disk.mk ln.name ln.sectors_read 0 bps ∈ DisksIOInfo.init lines) ∧
    getFastestDiskRead (DisksIOInfo.init lines) =
      (DisksIOInfo.init lines).foldl
        (fun m d => max m (d.bytes_per_sector * d.current_sectors_read)) 0 := by
  have hlast : ∀ d ∈ DisksIOInfo.init lines, d.last_sectors_read = 0 := by
    intro d hd
    rcases List.mem_filterMap.mp hd with ⟨ln, _, hln⟩
    by_cases hloop : startsWithLoop ln.name = true
    · rw [if_pos hloop] at hln
      exact absurd hln (by simp)
    · rw [if_neg hloop] at hln
      cases hsz : ln.hw_sector_size with
      | none =>
        rw [hsz] at hln
        exact absurd hln (by simp)
      | some bps =>
        rw [hsz] at hln
        simp only [Option.some.injEq] at hln
        rw [← hln]
  refine ⟨hlast, ?_, getFastest_of_last_zero _ hlast⟩
  intro ln hln bps hloop hsz
  refine List.mem_filterMap.mpr ⟨ln, hln, ?_⟩
  rw [if_neg (by simp [hloop]), hsz]

/-- Claim C10 witness: of three diskstats lines, the loop device and
the partition without a sector size are skipped; the one recorded disk
has a zero last-read baseline and the pre-update fastest read is
512 * 100 = 51200 bytes. -/
theorem c10_init_baseline_witness :
    Disk.mk "sda" 100 0 512 ∈
      DisksIOInfo.init
        [DiskStatLine.mk "sda" 100 (some 512),
         DiskStatLine.mk "loop0" 5 (some 512),
         DiskStatLine.mk "sda1" 7 none] ∧
    getFastestDiskRead
        (DisksIOInfo.init
          [DiskStatLine.mk "sda" 100 (some 512),
           DiskStatLine.mk "loop0" 5 (some 512),
           DiskStatLine.mk "sda1" 7 none]) = 51200 := by
  refine ⟨(c10_init_baseline
      [DiskStatLine.mk "sda" 100 (some 512),
       DiskStatLine.mk "loop0" 5 (some 512),
       DiskStatLine.mk "sda1" 7 none]).2.1
      (DiskStatLine.mk "sda" 100 (some 512)) (by simp) 512 (by decide) rfl,
    by decide⟩

/-- Claim C2 witness: with input list ["a"], output list ["b"], write
size 3, all opens succeeding and "a" holding the bytes [7, 8], the
WriteOnly step installs the three-byte synthesized buffer at "b" and
the ReadWrite step copies [7, 8] to "b". -/
theorem c2_write_modes_witness :
    (writeOnlyStep
        (WorkerEnv.mk ["a"] ["b"] 3 (fun _ => true) (fun _ => true))
        (fun q => if q = "a" then some [7, 8] else none) 0).1 "b" =
      some (synthContent 3) ∧
    (readWriteStep
        (WorkerEnv.mk ["a"] ["b"] 3 (fun _ => true) (fun _ => true))
        (fun q => if q = "a" then some [7, 8] else none) 0).1 "b" =
      some [7, 8] := by
  have h := c2_write_modes
    (WorkerEnv.mk ["a"] ["b"] 3 (fun _ => true) (fun _ => true))
    (fun q => if q = "a" then some [7, 8] else none) 0
  exact ⟨(h.1 rfl).1, h.2.2 [7, 8] (by decide) rfl⟩

/-- Claim C3 witness: for the throughput history [5, 1, 1, 3, 4] the
robust minimum excludes the first two chronological samples and
returns 1, the minimum of the remainder [1, 3, 4]; two samples are too
few and signal an error. -/
theorem c3_final_report_witness :
    robustMin [(5 : Rat), 1, 1, 3, 4] = some 1 ∧
    (1 : Rat) ∈ ([(5 : Rat), 1, 1, 3, 4].drop 2) ∧
    (∀ x ∈ ([(5 : Rat), 1, 1, 3, 4].drop 2), (1 : Rat) ≤ x) ∧
    robustMin [(5 : Rat), 1] = none := by
  have h5 := c3_final_report ([] : List WorkerM) [(5 : Rat), 1, 1, 3, 4]
  have h2 := c3_final_report ([] : List WorkerM) [(5 : Rat), 1]
  have hmin : robustMin [(5 : Rat), 1, 1, 3, 4] = some 1 := by decide
  have hm := h5.2.2.2.2.2.1 1 hmin
  exact ⟨hmin, hm.1, hm.2, h2.2.2.2.2.1 (by decide)⟩

end IOBench
